import Mathlib

/-!
Shallow embedding of `platformio_auto_config.py` (repository
`platformio_auto_config`), a small interactive tool that selects a serial
device path and writes it into the `upload_port` key of an INI-style
override-configuration file.

Modelling conventions:
* Python's falsy sentinel `False`, returned by several helpers alongside real
  strings, is modelled as `Option.none`; a real string `s` is `Option.some s`.
  Python truthiness of such a value ("non-`False` and non-empty string") is
  the `truthyV` predicate below.
* Filesystem and terminal interaction is made explicit: each function takes
  the data the Python code reads (directory listings, file-existence booleans,
  user input lines) as arguments and returns the data it would produce.
* `configparser` documents are modelled as association lists from section
  names to association lists of key/value pairs.
* Machine-level string details (`str.strip`, `str.lower`, `int(...)`,
  substring membership) are modelled on `List Char`, covering the ASCII
  behaviour the program exercises.
-/

namespace PlatformioAutoConfig

/-- Characters removed from both ends by Python `str.strip()` (whitespace). -/
def stripChars (cs : List Char) : List Char :=
  ((cs.dropWhile Char.isWhitespace).reverse.dropWhile Char.isWhitespace).reverse

/-- Models Python `s.strip()` (ASCII whitespace). -/
def pyStrip (s : String) : String := ⟨stripChars s.data⟩

/-- Models Python `s.lower()` (ASCII letters). -/
def pyLower (s : String) : String := ⟨s.data.map Char.toLower⟩

/-- Helper for Python's substring operator `pat in s`, on character lists. -/
def charsContains (pat : List Char) : List Char → Bool
  | [] => pat.isEmpty
  | c :: rest => pat.isPrefixOf (c :: rest) || charsContains pat rest

/-- Models Python `pat in s` for strings. -/
def strContains (s pat : String) : Bool := charsContains pat.data s.data

/-- Models Python `s.startswith(pre)`. -/
def pyStartsWith (s pre : String) : Bool := pre.data.isPrefixOf s.data

/-- Numeric value of an ASCII digit. -/
def digitVal (c : Char) : Nat := c.toNat - 48

/-- Parses the remainder of a Python integer literal: digits optionally
separated by single underscores (Python's `int()` grammar after the sign and
the first digit). `acc` is the value of the digits consumed so far. -/
def digitRunAux : List Char → Nat → Option Nat
  | [], acc => some acc
  | '_' :: c :: rest, acc =>
    if c.isDigit then digitRunAux rest (acc * 10 + digitVal c) else none
  | c :: rest, acc =>
    if c.isDigit then digitRunAux rest (acc * 10 + digitVal c) else none

/-- Parses a nonempty run of ASCII digits with optional single internal
underscores, as accepted by Python `int()` after an optional sign. -/
def digitRun (cs : List Char) : Option Nat :=
  match cs with
  | [] => none
  | c :: rest => if c.isDigit then digitRunAux rest (digitVal c) else none

/-- Models Python `int(s)` for a string argument: strip whitespace, then an
optional sign followed by an ASCII digit run (underscore separators allowed);
`none` models the `ValueError` raised on any other input. -/
def pyIntOfString (s : String) : Option Int :=
  match (pyStrip s).data with
  | [] => none
  | c :: rest =>
    if c = '-' then (digitRun rest).map (fun n => -(n : Int))
    else if c = '+' then (digitRun rest).map (fun n => (n : Int))
    else (digitRun (c :: rest)).map (fun n => (n : Int))

/-- Models Python sequence indexing `l[i]` under `try ... except IndexError`:
negative indices count from the end, and any out-of-range index yields the
caught-`IndexError` result `none`. -/
def pyListGet (l : List String) (i : Int) : Option String :=
  let j : Int := if 0 ≤ i then i else (l.length : Int) + i
  if j < 0 then none else l.get? j.toNat

/-- The index-like argument of `get_tty_from_list`: the script passes either a
Python `int` (the default index) or a `str` (raw user input). -/
inductive IdxInput where
  | int (i : Int)
  | str (s : String)
deriving DecidableEq

/-- Embedding of `get_tty_from_list(tty_list_object, indexof)`: `.get` for
lists. A blank/whitespace-only string, an unparseable string, or an
out-of-bounds index produce the Python sentinel `False` (here `none`);
otherwise the element at the (possibly negative) index is returned.
The Lean function is total: the embedding never raises. -/
def get_tty_from_list (tty_list_object : List String) (indexof : IdxInput) : Option String :=
  match indexof with
  | .int i => pyListGet tty_list_object i
  | .str s =>
    if pyStrip s = "" then none
    else
      match pyIntOfString s with
      | none => none
      | some i => pyListGet tty_list_object i

/-- Spec-side resolver: the integer an index-like input denotes, if any
(blank strings and unparseable strings denote nothing). -/
def idxToInt : IdxInput → Option Int
  | .int i => some i
  | .str s => if pyStrip s = "" then none else pyIntOfString s

/-- Spec-side resolved position of index `i` in a list of length `n`,
following Python semantics for negative indices. -/
def pyIndex (n : Nat) (i : Int) : Nat :=
  (if 0 ≤ i then i else (n : Int) + i).toNat

/-- The module-level `IGNORE_DEVICES_BY_DEFAULT` list. -/
def IGNORE_DEVICES_BY_DEFAULT : List String :=
  ["/dev/tty.Bluetooth-Incoming-Port",
   "/dev/tty.wlan-debug",
   "/dev/tty.debug-console"]

/-- Embedding of `get_device_list(debug)`. The implicit inputs read from the
system are explicit parameters: `sysname` is `os.uname().sysname`, `devExists`
is `os.path.exists('/dev/')`, `listing` is `os.listdir('/dev/')`.
`none` models the `False` returned on an unsupported OS or a missing `/dev/`;
`os.path.join('/dev/', filename)` is string concatenation for the
relative names a directory listing yields. -/
def get_device_list (sysname : String) (devExists : Bool) (listing : List String)
    (debug : Bool) : Option (List String) :=
  if ["Darwin"].contains sysname then
    if !devExists then none
    else
      let tty_list := (listing.filter (fun filename => pyStartsWith filename "tty.")).map
        (fun filename => "/dev/" ++ filename)
      if !debug then
        some (tty_list.filter (fun entry => !(IGNORE_DEVICES_BY_DEFAULT.contains entry)))
      else some tty_list
  else none

/-- Python `enumerate` starting at index `i`. -/
def enumFrom (i : Nat) : List String → List (Nat × String)
  | [] => []
  | t :: rest => (i, t) :: enumFrom (i + 1) rest

/-- The first `for indexof, tty in enumerate(tty_list)` loop of
`show_device_list`: accumulates the printed `(index, tty)` lines `pr`, the
running `default` index `d`, and the `seen_ttys` list `seen`. -/
def loop1 : List String → Nat → List (Nat × String) → Int → List String →
    List (Nat × String) × Int × List String
  | [], _, pr, d, seen => (pr, d, seen)
  | t :: rest, i, pr, d, seen =>
    if strContains t "usbserial" then
      loop1 rest (i + 1) (pr ++ [(i, t)]) (Int.ofNat i) (seen ++ [t])
    else loop1 rest (i + 1) pr d seen

/-- The body of `show_device_list` after the empty-list guard: both printing
loops, returning the printed `(index, device)` lines in order and the tracked
`default` index (initially `-1`). -/
def show_core (tty_list : List String) : List (Nat × String) × Int :=
  let r := loop1 tty_list 0 [] (-1) []
  let printed2 := (enumFrom 0 tty_list).filter (fun p => !(r.2.2.contains p.2))
  (r.1 ++ printed2, r.2.1)

/-- Spec-side description of a repeated-overwrite loop variable: the original
index of the last element of `ps`, or `d` when `ps` is empty. -/
def lastIdxD (ps : List (Nat × String)) (d : Int) : Int :=
  match ps.getLast? with
  | none => d
  | some p => Int.ofNat p.1

/-- Embedding of `show_device_list(debug)` given the result `devResult` of
`get_device_list`: `if not tty_list` (the `False` sentinel or an empty list)
calls `sys.exit(1)`, modelled as `Except.error 1`; otherwise returns the
`(default, tty_list)` pair the function returns. -/
def show_device_list (devResult : Option (List String)) : Except Nat (Int × List String) :=
  match devResult with
  | none => Except.error 1
  | some [] => Except.error 1
  | some l => Except.ok ((show_core l).2, l)

/-- Python truthiness of a "string or `False`" value: `False` and the empty
string are falsy. -/
def truthyV : Option String → Bool
  | none => false
  | some s => !(s == "")

/-- One iteration of the `while True` selection loop in `cli` (lines 178-201),
from the point where `default` and `tty_list` are known: given the previous
`upload_port` value and the raw line `resp0` read by `input()`, returns the
`new_device` value at the loop's `if new_device:` check. At the top of every
iteration the carried `new_device` is falsy (initially `""`, and a truthy
value breaks the loop), so the carried value is represented by `some ""`. -/
def sel_iter (upload_port : Option String) (tty_list : List String) (default : Int)
    (resp0 : String) : Option String :=
  let resp := pyStrip resp0
  let st : Option String × Bool :=
    if 0 ≤ default then
      if resp = "" then (get_tty_from_list tty_list (.int default), true)
      else (some "", false)
    else
      if resp = "" && truthyV upload_port then (upload_port, true)
      else (some "", false)
  if !st.2 && truthyV (get_tty_from_list tty_list (.str resp)) then
    get_tty_from_list tty_list (.str resp)
  else st.1

/-- Outcome of the selection loop. -/
inductive LoopResult where
  | exited (code : Nat)
  | selectedDev (d : String)
  | outOfInput
deriving DecidableEq

/-- The `while True` selection loop of `cli`. Each element of `inputs` is one
iteration's environment: the `get_device_list` result seen by
`show_device_list`, and the raw line read by `input()`. The loop exits the
process via `show_device_list` (`exited`), breaks when `new_device` is truthy
(`selectedDev`), or, if the modelled input is exhausted, would block on
`input()` (`outOfInput`). -/
def sel_loop (upload_port : Option String) :
    List (Option (List String) × String) → LoopResult
  | [] => .outOfInput
  | (devs, resp) :: rest =>
    match show_device_list devs with
    | .error c => .exited c
    | .ok (default, tty_list) =>
      match sel_iter upload_port tty_list default resp with
      | none => sel_loop upload_port rest
      | some s => if s = "" then sel_loop upload_port rest else .selectedDev s

/-- An INI-style document as `configparser` holds it: section name to
key/value association list. -/
abbrev Sections := List (String × List (String × String))

/-- Models `section in config`. -/
def hasSection (c : Sections) (s : String) : Bool := c.any (fun p => p.1 == s)

/-- Models `config[section] = {}` when the section may already exist, i.e. the
`if section not in config: config[section] = {}` idiom. -/
def ensureSection (c : Sections) (s : String) : Sections :=
  if hasSection c s then c else c ++ [(s, [])]

/-- Models assignment `kvs[k] = v` in a section's key/value mapping. -/
def setAssoc (kvs : List (String × String)) (k v : String) : List (String × String) :=
  if kvs.any (fun p => p.1 == k) then
    kvs.map (fun p => if p.1 == k then (p.1, v) else p)
  else kvs ++ [(k, v)]

/-- Models `config[sec][k] = v` (the section is present when `cli` executes
this assignment; on an absent section the document is left unchanged where
Python would raise `KeyError`). -/
def setKey (c : Sections) (sec k v : String) : Sections :=
  c.map (fun p => if p.1 == sec then (p.1, setAssoc p.2 k v) else p)

/-- Reads section `s` of a document (first match, as `configparser` sections
are unique). -/
def lookupSection (c : Sections) (s : String) : Option (List (String × String)) :=
  (c.find? (fun p => p.1 == s)).map (fun p => p.2)

/-- Reads `config[s][k]`, if present. -/
def lookupKey (c : Sections) (s k : String) : Option String :=
  (lookupSection c s).bind (fun kvs => (kvs.find? (fun p => p.1 == k)).map (fun p => p.2))

/-- The `config[section]['upload_port'] = new_device` assignment in `cli`. -/
def cli_write_upload_port (config : Sections) (sec : String) (new_device : String) : Sections :=
  setKey config sec "upload_port" new_device

/-- Embedding of `load_config(script_config)`. Explicit inputs: the effective
`section`, whether the override-config file and the platformio marker file
exist, the raw answer `userResponse` that `input()` would read at the
creation prompt, and the parsed on-disk document `diskConfig` that
`config.read` would produce. `Except.error msg` models `sys.exit(msg)`. -/
def load_config («section» : String) (configFileExists platformioFileExists : Bool)
    (userResponse : String) (diskConfig : Sections) : Except String Sections :=
  if !configFileExists then
    if !platformioFileExists then
      Except.error "You're not in a platformio dir, quitting"
    else if ["yes", "y"].contains (pyLower (pyStrip userResponse)) then
      Except.ok (ensureSection [(«section», [])] «section»)
    else Except.error "User didn't confirm, bailing"
  else Except.ok (ensureSection diskConfig «section»)

/-- The three settings of the script's own configuration. -/
structure ScriptSettings where
  platformio_file : String
  config_file : String
  «section» : String
deriving DecidableEq

/-- Overlaying one `key = value` pair read from a script-config file onto the
settings (keys other than the three known ones are stored by `configparser`
but never read, so they are dropped here). -/
def applySetting (st : ScriptSettings) (kv : String × String) : ScriptSettings :=
  if kv.1 == "platformio_file" then { st with platformio_file := kv.2 }
  else if kv.1 == "config_file" then { st with config_file := kv.2 }
  else if kv.1 == "section" then { st with «section» := kv.2 }
  else st

/-- Embedding of `load_script_config(section, defaults)`: defaults first, then
the `[settings]` pairs read from the optional config files in read order
(`fileSettings`, later pairs overriding earlier ones), then
`if section: script_config['settings']['section'] = section` — the override
fires for every truthy argument (any nonempty string). -/
def load_script_config (sectionArg : Option String) (defaults : ScriptSettings)
    (fileSettings : List (String × String)) : ScriptSettings :=
  let st := fileSettings.foldl applySetting defaults
  match sectionArg with
  | some s => if s = "" then st else { st with «section» := s }
  | none => st

/-- The `defaults` dict literal `cli` passes to `load_script_config`. -/
def cliDefaults : ScriptSettings :=
  ⟨"platformio.ini", "platformio_override.ini", "common"⟩

/-- The `click` default for `--section`: when the user does not supply the
option, `cli` receives this string. -/
def CLICK_SECTION_DEFAULT : String := "common"

/-- The script-config computation as `cli` performs it: `click` always passes
a string (the user's `--section` value or `CLICK_SECTION_DEFAULT`), and `cli`
forwards it together with the literal defaults. -/
def cli_script_config (cliSection : String) (fileSettings : List (String × String)) :
    ScriptSettings :=
  load_script_config (some cliSection) cliDefaults fileSettings

/-- Rendering of a document by `config.write(file_handle)`: each section
header followed by its `key = value` lines and a blank line. -/
def renderConfig (c : Sections) : String :=
  String.join (c.map (fun p =>
    "[" ++ p.1 ++ "]\n"
      ++ String.join (p.2.map (fun kv => kv.1 ++ " = " ++ kv.2 ++ "\n"))
      ++ "\n"))

/-- The final persistence step of `cli` (lines 208-212): the resulting on-disk
content of the override-config file, given its previous content `disk`. In
test mode only a warning is logged and the file is untouched; otherwise the
document is written out, replacing the file's contents. -/
def cli_persist (test : Bool) (disk : String) (config : Sections) : String :=
  if test then disk else renderConfig config

/-! ### Helper lemmas -/

lemma contains_iff_mem (l : List String) (a : String) : l.contains a = true ↔ a ∈ l := by
  simp [List.contains, List.elem_iff]

lemma pyListGet_in_bounds (l : List String) (i : Int) (h1 : -(l.length : Int) ≤ i)
    (h2 : i < (l.length : Int)) :
    ∃ h : pyIndex l.length i < l.length,
      pyListGet l i = some (l.get ⟨pyIndex l.length i, h⟩) := by
  by_cases hi : 0 ≤ i
  · have hlt : i.toNat < l.length := by omega
    have hidx : pyIndex l.length i = i.toNat := by simp [pyIndex, hi]
    refine ⟨by rw [hidx]; exact hlt, ?_⟩
    simp only [pyListGet, if_pos hi, if_neg (show ¬ i < 0 by omega), hidx]
    exact List.get?_eq_get hlt
  · have hge : (0 : Int) ≤ (l.length : Int) + i := by omega
    have hlt : ((l.length : Int) + i).toNat < l.length := by omega
    have hidx : pyIndex l.length i = ((l.length : Int) + i).toNat := by simp [pyIndex, hi]
    refine ⟨by rw [hidx]; exact hlt, ?_⟩
    simp only [pyListGet, if_neg hi, if_neg (show ¬ (l.length : Int) + i < 0 by omega), hidx]
    exact List.get?_eq_get hlt

lemma pyListGet_out_of_bounds (l : List String) (i : Int)
    (h : i < -(l.length : Int) ∨ (l.length : Int) ≤ i) : pyListGet l i = none := by
  rcases h with h | h
  · have h0 : ¬ (0 ≤ i) := by omega
    simp only [pyListGet, if_neg h0, if_pos (show (l.length : Int) + i < 0 by omega)]
  · have h0 : (0 : Int) ≤ i := by omega
    simp only [pyListGet, if_pos h0, if_neg (show ¬ i < 0 by omega)]
    exact List.get?_eq_none.mpr (by omega)

lemma get_tty_eq_pyListGet (l : List String) (x : IdxInput) (i : Int)
    (hi : idxToInt x = some i) : get_tty_from_list l x = pyListGet l i := by
  cases x with
  | int i0 =>
    simp only [idxToInt, Option.some.injEq] at hi
    subst hi
    rfl
  | str s =>
    by_cases hb : pyStrip s = ""
    · simp [idxToInt, hb] at hi
    · have hp : pyIntOfString s = some i := by simpa [idxToInt, hb] using hi
      simp [get_tty_from_list, hb, hp]

lemma lastIdxD_cons (p : Nat × String) (ps : List (Nat × String)) (d : Int) :
    lastIdxD (p :: ps) d = lastIdxD ps (Int.ofNat p.1) := by
  cases ps with
  | nil => simp [lastIdxD, List.getLast?_singleton]
  | cons q qs =>
    simp only [lastIdxD, List.getLast?_cons_cons]
    cases hq : (q :: qs).getLast? with
    | none => simp [List.getLast?_eq_none_iff] at hq
    | some r => rfl

lemma loop1_spec (l : List String) :
    ∀ (i : Nat) (pr : List (Nat × String)) (d : Int) (seen : List String),
      loop1 l i pr d seen =
        (pr ++ (enumFrom i l).filter (fun p => strContains p.2 "usbserial"),
         lastIdxD ((enumFrom i l).filter (fun p => strContains p.2 "usbserial")) d,
         seen ++ l.filter (fun t => strContains t "usbserial")) := by
  induction l with
  | nil =>
    intro i pr d seen
    simp [loop1, enumFrom, lastIdxD]
  | cons t rest ih =>
    intro i pr d seen
    cases ht : strContains t "usbserial" with
    | false =>
      simp [loop1, ht, enumFrom, ih, List.filter_cons]
    | true =>
      simp only [loop1, ht, if_pos, enumFrom, ih, List.filter_cons, if_true, lastIdxD_cons,
        List.append_assoc, List.singleton_append]

lemma mem_snd_of_mem_enumFrom :
    ∀ (l : List String) (j : Nat) (p : Nat × String), p ∈ enumFrom j l → p.2 ∈ l := by
  intro l
  induction l with
  | nil =>
    intro j p hp
    simp [enumFrom] at hp
  | cons t rest ih =>
    intro j p hp
    rcases (by simpa [enumFrom] using hp : p = (j, t) ∨ p ∈ enumFrom (j + 1) rest) with h | h
    · subst h
      exact List.mem_cons_self _ _
    · exact List.mem_cons_of_mem _ (ih (j + 1) p h)

lemma get?_of_mem_enumFrom :
    ∀ (l : List String) (j : Nat) (p : Nat × String), p ∈ enumFrom j l →
      j ≤ p.1 ∧ l.get? (p.1 - j) = some p.2 := by
  intro l
  induction l with
  | nil =>
    intro j p hp
    simp [enumFrom] at hp
  | cons t rest ih =>
    intro j p hp
    rcases (by simpa [enumFrom] using hp : p = (j, t) ∨ p ∈ enumFrom (j + 1) rest) with h | h
    · subst h
      simp
    · obtain ⟨h1, h2⟩ := ih (j + 1) p h
      refine ⟨by omega, ?_⟩
      have hs : p.1 - j = (p.1 - (j + 1)) + 1 := by omega
      rw [hs, List.get?_cons_succ]
      exact h2

lemma seen_filter_eq (l : List String) :
    (enumFrom 0 l).filter
        (fun p => !((l.filter (fun t => strContains t "usbserial")).contains p.2))
      = (enumFrom 0 l).filter (fun p => !(strContains p.2 "usbserial")) := by
  refine List.filter_congr ?_
  intro p hp
  have hp2 : p.2 ∈ l := mem_snd_of_mem_enumFrom l 0 p hp
  congr 1
  cases hu : strContains p.2 "usbserial" with
  | true =>
    exact (contains_iff_mem _ _).mpr (List.mem_filter.mpr ⟨hp2, hu⟩)
  | false =>
    cases hc : (l.filter (fun t => strContains t "usbserial")).contains p.2 with
    | false => rfl
    | true =>
      have := (List.mem_filter.mp ((contains_iff_mem _ _).mp hc)).2
      rw [this] at hu
      cases hu

lemma find?_map_set_hit (k v : String) :
    ∀ kvs : List (String × String), kvs.any (fun p => p.1 == k) = true →
      (((kvs.map (fun p => if p.1 == k then (p.1, v) else p)).find?
          (fun p => p.1 == k)).map (fun p => p.2)) = some v := by
  intro kvs
  induction kvs with
  | nil => intro h; simp at h
  | cons q rest ih =>
    intro h
    cases hq : (q.1 == k) with
    | true =>
      simp only [List.map_cons, if_pos hq]
      simp [List.find?_cons, hq]
    | false =>
      have hrest : rest.any (fun p => p.1 == k) = true := by
        simpa [List.any_cons, hq] using h
      simp only [List.map_cons, hq, Bool.false_eq_true, if_false]
      simp only [List.find?_cons, hq]
      exact ih hrest

lemma find?_append_missing (k v : String) :
    ∀ kvs : List (String × String), kvs.any (fun p => p.1 == k) = false →
      (((kvs ++ [(k, v)]).find? (fun p => p.1 == k)).map (fun p => p.2)) = some v := by
  intro kvs
  induction kvs with
  | nil =>
    intro h
    simp [List.find?_cons]
  | cons q rest ih =>
    intro h
    have hq : (q.1 == k) = false := by
      cases hq : (q.1 == k) with
      | false => rfl
      | true => simp [List.any_cons, hq] at h
    have hrest : rest.any (fun p => p.1 == k) = false := by
      simpa [List.any_cons, hq] using h
    rw [List.cons_append]
    simp only [List.find?_cons, hq]
    exact ih hrest

lemma lookupAssoc_set (kvs : List (String × String)) (k v : String) :
    ((setAssoc kvs k v).find? (fun p => p.1 == k)).map (fun p => p.2) = some v := by
  cases hany : kvs.any (fun p => p.1 == k) with
  | true =>
    simp only [setAssoc, hany, if_true]
    exact find?_map_set_hit k v kvs hany
  | false =>
    simp only [setAssoc, hany, Bool.false_eq_true, if_false]
    exact find?_append_missing k v kvs hany

lemma lookup_setKey :
    ∀ (c : Sections) (sec k v : String), hasSection c sec = true →
      lookupKey (setKey c sec k v) sec k = some v := by
  intro c sec k v
  induction c with
  | nil => intro h; simp [hasSection] at h
  | cons q rest ih =>
    intro h
    cases hq : (q.1 == sec) with
    | true =>
      simp only [setKey, List.map_cons, if_pos hq, lookupKey, lookupSection]
      simp only [List.find?_cons, hq]
      simpa using lookupAssoc_set q.2 k v
    | false =>
      have hrest : hasSection rest sec = true := by
        simpa [hasSection, List.any_cons, hq] using h
      simp only [setKey, List.map_cons, hq, Bool.false_eq_true, if_false, lookupKey,
        lookupSection]
      simp only [List.find?_cons, hq]
      have := ih hrest
      simpa [setKey, lookupKey, lookupSection] using this

lemma sel_loop_selected_ne_empty :
    ∀ (up : Option String) (inputs : List (Option (List String) × String)) (d : String),
      sel_loop up inputs = LoopResult.selectedDev d → d ≠ "" := by
  intro up inputs
  induction inputs with
  | nil =>
    intro d h
    simp [sel_loop] at h
  | cons hd rest ih =>
    intro d h
    obtain ⟨devs, resp⟩ := hd
    cases hsd : show_device_list devs with
    | error c =>
      simp only [sel_loop, hsd] at h
      exact LoopResult.noConfusion h
    | ok pr =>
      obtain ⟨default, tl⟩ := pr
      simp only [sel_loop, hsd] at h
      cases hit : sel_iter up tl default resp with
      | none =>
        simp only [hit] at h
        exact ih d h
      | some s =>
        simp only [hit] at h
        by_cases hs : s = ""
        · rw [if_pos hs] at h
          exact ih d h
        · rw [if_neg hs] at h
          cases h
          exact hs

/-! ### Claim theorems -/

/-- C2: for every sequence and every index-like input, `get_tty_from_list`
returns the failure sentinel when the input is a blank/whitespace string,
cannot be parsed as an integer, or resolves to an index out of bounds;
otherwise it returns exactly the element at the resolved position (negative
indices counting from the end). Totality of the Lean function embodies
"never raises". -/
theorem get_tty_from_list_spec (l : List String) (x : IdxInput) :
    (∀ s, x = IdxInput.str s → pyStrip s = "" → get_tty_from_list l x = none) ∧
    (∀ s, x = IdxInput.str s → pyStrip s ≠ "" → pyIntOfString s = none →
      get_tty_from_list l x = none) ∧
    (∀ i, idxToInt x = some i → -(l.length : Int) ≤ i → i < (l.length : Int) →
      ∃ h : pyIndex l.length i < l.length,
        get_tty_from_list l x = some (l.get ⟨pyIndex l.length i, h⟩)) ∧
    (∀ i, idxToInt x = some i → (i < -(l.length : Int) ∨ (l.length : Int) ≤ i) →
      get_tty_from_list l x = none) := by
  refine ⟨?_, ?_, ?_, ?_⟩
  · rintro s rfl hb
    simp [get_tty_from_list, hb]
  · rintro s rfl hb hp
    simp [get_tty_from_list, hb, hp]
  · intro i hi h1 h2
    rw [get_tty_eq_pyListGet l x i hi]
    exact pyListGet_in_bounds l i h1 h2
  · intro i hi hout
    rw [get_tty_eq_pyListGet l x i hi]
    exact pyListGet_out_of_bounds l i hout

/-- C2 witness: on the list `["a", "b"]` and the user-input string `"-1"`,
the helper returns exactly the last element. -/
theorem get_tty_from_list_spec_witness :
    ∃ h : pyIndex (["a", "b"] : List String).length (-1) < (["a", "b"] : List String).length,
      get_tty_from_list ["a", "b"] (IdxInput.str "-1")
        = some ((["a", "b"] : List String).get ⟨pyIndex (["a", "b"] : List String).length (-1), h⟩) :=
  (get_tty_from_list_spec ["a", "b"] (IdxInput.str "-1")).2.2.1 (-1) (by decide)
    (by decide) (by decide)

/-- C4: on the supported OS (`Darwin`) with `/dev/` present, the enumerator
returns exactly the full paths of the listing's entries whose name begins
with `tty.`; with the debug flag unset the three built-in ignored paths are
removed, and with it set they are retained. -/
theorem get_device_list_darwin_spec (listing : List String) (debug : Bool) :
    ∃ r, get_device_list "Darwin" true listing debug = some r ∧
      ∀ p, p ∈ r ↔
        ((∃ name, name ∈ listing ∧ pyStartsWith name "tty." = true ∧ p = "/dev/" ++ name) ∧
          (debug = true ∨ p ∉ IGNORE_DEVICES_BY_DEFAULT)) := by
  have hsys : (["Darwin"] : List String).contains "Darwin" = true := by decide
  cases debug with
  | true =>
    refine ⟨(listing.filter (fun f => pyStartsWith f "tty.")).map (fun f => "/dev/" ++ f),
      by simp [get_device_list, hsys], ?_⟩
    intro p
    simp only [List.mem_map, List.mem_filter]
    constructor
    · rintro ⟨a, ⟨ha, hq⟩, rfl⟩
      exact ⟨⟨a, ha, hq, rfl⟩, Or.inl trivial⟩
    · rintro ⟨⟨a, ha, hq, rfl⟩, -⟩
      exact ⟨a, ⟨ha, hq⟩, rfl⟩
  | false =>
    refine ⟨((listing.filter (fun f => pyStartsWith f "tty.")).map (fun f => "/dev/" ++ f)).filter
        (fun e => !(IGNORE_DEVICES_BY_DEFAULT.contains e)),
      by simp [get_device_list, hsys], ?_⟩
    intro p
    simp only [List.mem_filter, List.mem_map, Bool.not_eq_true']
    constructor
    · rintro ⟨⟨a, ⟨ha, hq⟩, rfl⟩, hnc⟩
      refine ⟨⟨a, ha, hq, rfl⟩, Or.inr ?_⟩
      intro hmem
      rw [(contains_iff_mem _ _).mpr hmem] at hnc
      cases hnc
    · rintro ⟨⟨a, ha, hq, rfl⟩, hr⟩
      refine ⟨⟨a, ⟨ha, hq⟩, rfl⟩, ?_⟩
      rcases hr with hr | hr
      · cases hr
      · rcases hcon : IGNORE_DEVICES_BY_DEFAULT.contains ("/dev/" ++ a) with _ | _
        · rfl
        · exact absurd ((contains_iff_mem _ _).mp hcon) hr

/-- C3: the listing prints every `usbserial` entry (with its original index)
before every non-`usbserial` entry (with its original index, not renumbered),
and the tracked default is the original index of the last `usbserial` entry
in forward order, or `-1` when there is none. -/
theorem show_core_order_spec (l : List String) :
    (show_core l).1 =
        (enumFrom 0 l).filter (fun p => strContains p.2 "usbserial")
          ++ (enumFrom 0 l).filter (fun p => !(strContains p.2 "usbserial")) ∧
    (∀ p, p ∈ (show_core l).1 → l.get? p.1 = some p.2) ∧
    (show_core l).2 =
      lastIdxD ((enumFrom 0 l).filter (fun p => strContains p.2 "usbserial")) (-1) := by
  have hl := loop1_spec l 0 [] (-1) []
  have hcore : show_core l =
      ((enumFrom 0 l).filter (fun p => strContains p.2 "usbserial")
          ++ (enumFrom 0 l).filter (fun p => !(strContains p.2 "usbserial")),
        lastIdxD ((enumFrom 0 l).filter (fun p => strContains p.2 "usbserial")) (-1)) := by
    simp only [show_core, hl, List.nil_append]
    rw [seen_filter_eq]
  refine ⟨by rw [hcore], ?_, by rw [hcore]⟩
  intro p hp
  rw [hcore] at hp
  rcases List.mem_append.mp hp with h | h
  · have := get?_of_mem_enumFrom l 0 p (List.mem_filter.mp h).1
    simpa using this.2
  · have := get?_of_mem_enumFrom l 0 p (List.mem_filter.mp h).1
    simpa using this.2

/-- C5: with the override-config file absent, a missing marker file is fatal
without any prompt (the result does not depend on `resp`); with the marker
present, a `y`/`yes` answer (after strip/lowercase) yields a fresh in-memory
document holding exactly the empty target section, and any other answer is
fatal. -/
theorem load_config_missing_file_spec (sec resp : String) (disk : Sections) :
    (load_config sec false false resp disk
        = Except.error "You're not in a platformio dir, quitting") ∧
    (["yes", "y"].contains (pyLower (pyStrip resp)) = true →
      load_config sec false true resp disk = Except.ok [(sec, [])]) ∧
    (["yes", "y"].contains (pyLower (pyStrip resp)) = false →
      load_config sec false true resp disk
        = Except.error "User didn't confirm, bailing") := by
  refine ⟨rfl, ?_, ?_⟩
  · intro h
    have h2 : pyLower (pyStrip resp) = "yes" ∨ pyLower (pyStrip resp) = "y" := by
      simpa using (contains_iff_mem _ _).mp h
    rcases h2 with h2 | h2 <;> simp [load_config, h2, ensureSection, hasSection]
  · intro h
    have h2 : ¬ (pyLower (pyStrip resp) = "yes" ∨ pyLower (pyStrip resp) = "y") := by
      intro hor
      have hc : (["yes", "y"] : List String).contains (pyLower (pyStrip resp)) = true :=
        (contains_iff_mem _ _).mpr (by rcases hor with h1 | h1 <;> simp [h1])
      rw [hc] at h
      cases h
    simp [load_config, h2]

/-- C5 witness: marker present, override config absent, answer `" Y "`:
the loader returns the fresh one-section document. -/
theorem load_config_missing_file_spec_witness :
    load_config "common" false true " Y " [] = Except.ok [("common", [])] :=
  (load_config_missing_file_spec "common" " Y " []).2.1 (by decide)

/-- C8: whenever `load_config` succeeds, the returned document contains the
target section. -/
theorem load_config_section_exists (sec : String) (cfgE pioE : Bool) (resp : String)
    (disk : Sections) (c : Sections)
    (h : load_config sec cfgE pioE resp disk = Except.ok c) :
    hasSection c sec = true := by
  have hens : ∀ d : Sections, hasSection (ensureSection d sec) sec = true := by
    intro d
    cases hd : hasSection d sec with
    | true => simp [ensureSection, hd]
    | false =>
      have hd2 : (List.any d fun p => p.1 == sec) = false := hd
      simp [ensureSection, hasSection, hd2, List.any_append]
  cases cfgE with
  | true =>
    have hc : ensureSection disk sec = c := by simpa [load_config] using h
    rw [← hc]
    exact hens disk
  | false =>
    cases pioE with
    | false => simp [load_config] at h
    | true =>
      by_cases hyes : pyLower (pyStrip resp) = "yes" ∨ pyLower (pyStrip resp) = "y"
      · have hc : ensureSection [(sec, [])] sec = c := by
          rcases hyes with h1 | h1 <;> simpa [load_config, h1] using h
        rw [← hc]
        exact hens [(sec, [])]
      · simp [load_config, hyes] at h

/-- C8 witness: loading an on-disk document lacking the target section yields
a document containing it. -/
theorem load_config_section_exists_witness :
    hasSection [("other", [("k", "v")]), ("common", [])] "common" = true :=
  load_config_section_exists "common" true true "" [("other", [("k", "v")])]
    [("other", [("k", "v")]), ("common", [])] (by rfl)

/-- C7: in test mode the on-disk override-config content is left byte-for-byte
unchanged; otherwise the rendered document replaces it. -/
theorem cli_persist_spec (disk : String) (config : Sections) :
    cli_persist true disk config = disk ∧
      cli_persist false disk config = renderConfig config :=
  ⟨rfl, rfl⟩

/-- C1 evidence: when the user does not pass `--section`, `click` supplies its
default `"common"`, and `load_script_config`'s unconditional truthy override
replaces whatever `section` value the script-config files provided. The file
overlay alone would yield `"custom"`, but the effective section is `"common"`:
the file-supplied `section` setting can never take effect. -/
theorem cli_script_config_ignores_file_section :
    (([("section", "custom")] : List (String × String)).foldl applySetting
        cliDefaults).«section» = "custom" ∧
    (cli_script_config CLICK_SECTION_DEFAULT [("section", "custom")]).«section» = "common" ∧
    (cli_script_config CLICK_SECTION_DEFAULT [("section", "custom")]).«section» ≠ "custom" :=
  ⟨by decide, by decide, by decide⟩

/-- C6: the selection loop only terminates by `break` with a non-empty device
string, and the `upload_port` key is then written into the target section with
exactly that non-empty value. -/
theorem sel_loop_writes_nonempty (up : Option String)
    (inputs : List (Option (List String) × String)) (d : String)
    (hsel : sel_loop up inputs = LoopResult.selectedDev d) :
    d ≠ "" ∧ ∀ (config : Sections) (sec : String), hasSection config sec = true →
      lookupKey (cli_write_upload_port config sec d) sec "upload_port" = some d := by
  refine ⟨sel_loop_selected_ne_empty up inputs d hsel, ?_⟩
  intro config sec hs
  exact lookup_setKey config sec "upload_port" d hs

/-- C6 witness: a run that selects the sole `usbserial` device writes that
non-empty path into the section. -/
theorem sel_loop_writes_nonempty_witness :
    ("/dev/tty.usbserial-1" : String) ≠ "" ∧
      lookupKey (cli_write_upload_port [("common", [])] "common" "/dev/tty.usbserial-1")
        "common" "upload_port" = some "/dev/tty.usbserial-1" := by
  have h := sel_loop_writes_nonempty none [(some ["/dev/tty.usbserial-1"], "")]
    "/dev/tty.usbserial-1" (by decide)
  exact ⟨h.1, h.2 [("common", [])] "common" (by decide)⟩

/-- C9: when device enumeration produced the failure sentinel or an empty
list, the loop exits the process with status 1 at `show_device_list`, before
the prompt (the result does not depend on the pending input or later
iterations), and 1 is non-zero. -/
theorem device_failure_exits (up : Option String) (devs : Option (List String))
    (resp : String) (rest : List (Option (List String) × String))
    (h : devs = none ∨ devs = some []) :
    sel_loop up ((devs, resp) :: rest) = LoopResult.exited 1 ∧
      show_device_list devs = Except.error 1 ∧ (1 : Nat) ≠ 0 := by
  rcases h with rfl | rfl
  · exact ⟨rfl, rfl, one_ne_zero⟩
  · exact ⟨rfl, rfl, one_ne_zero⟩

/-- C9 witness: the unsupported-OS/missing-`/dev/` sentinel terminates the
run with exit status 1. -/
theorem device_failure_exits_witness :
    sel_loop none [((none : Option (List String)), "")] = LoopResult.exited 1 ∧
      show_device_list none = Except.error 1 ∧ (1 : Nat) ≠ 0 :=
  device_failure_exits none none "" [] (Or.inl rfl)

/-- C10: with no default index (no `usbserial` entry) and a truthy previously
configured `upload_port` value `p`, blank input selects `p` verbatim; nothing
requires `p` to occur in the enumerated device list. -/
theorem blank_input_reuses_upload_port (t : String) (l : List String) (p resp : String)
    (rest : List (Option (List String) × String))
    (hd : (show_core (t :: l)).2 < 0) (hp : p ≠ "") (hr : pyStrip resp = "") :
    sel_loop (some p) ((some (t :: l), resp) :: rest) = LoopResult.selectedDev p := by
  have hshow : show_device_list (some (t :: l))
      = Except.ok ((show_core (t :: l)).2, t :: l) := rfl
  have htr : truthyV (some p) = true := by simp [truthyV, hp]
  have hiter : sel_iter (some p) (t :: l) ((show_core (t :: l)).2) resp = some p := by
    simp only [sel_iter, hr]
    rw [if_neg (show ¬ (0 ≤ (show_core (t :: l)).2) by omega)]
    simp [htr]
  simp only [sel_loop, hshow, hiter]
  rw [if_neg hp]

/-- C10 witness: the stored path `/dev/tty.old` is absent from the enumerated
list, the list has no `usbserial` entry, and blank input still selects the
stored path. -/
theorem blank_input_reuses_upload_port_witness :
    ("/dev/tty.old" : String) ∉ (["/dev/tty.foo"] : List String) ∧
      sel_loop (some "/dev/tty.old") [(some ["/dev/tty.foo"], "")]
        = LoopResult.selectedDev "/dev/tty.old" :=
  ⟨by decide,
    blank_input_reuses_upload_port "/dev/tty.foo" [] "/dev/tty.old" "" []
      (by decide) (by decide) (by decide)⟩

end PlatformioAutoConfig
